import Mathlib

/-!
Verification of the MOT (Multimedia Object Transfer) codec and carousel
reassembler of `src/mot/__init__.py` (python-dabmot).

The Python source is shallowly embedded: bit arrays become `List Bool`,
byte strings become `List Nat`, Python integer arithmetic is mirrored with
`Nat`/`Int` (Python 2 `/` on ints is floor division), and exceptions are
mirrored with `Except`.  The external helper `msc.int_to_bitarray`
(out-of-scope collaborator per spec section 1) is modelled from the spec as
big-endian fixed-width integer packing.
-/

/-- Bit strings (`bitarray` values in the source). -/
abbrev Bits := List Bool

/-- Errors of the embedded code, mirroring the Python exceptions raised by
the source: `ValueError` from `int('', 2)` on an empty slice, `IndexError`
from out-of-range single-bit indexing, the data-length mismatch in
`HeaderParameter.from_bits`, the `UnknownHeaderParameter` exception (carrying
the parameter id and the raw span), the unimplemented
`decode_relative_time`, the unknown-expiration-length error, the `assert` in
`Priority.__init__`, the missing-name error of `compile_object`, `KeyError`
from directory lookup, the out-of-range error of `encode_relative_time`,
and a fuel marker for loops that Python would not exit (unreachable with
the fuel supplied by the embedding). -/
inductive MotErr where
  | sliceEmpty : MotErr
  | indexOOB : MotErr
  | malformed (signalled actual : Nat) : MotErr
  | unknown (id : Nat) (raw : Bits) : MotErr
  | notImplemented : MotErr
  | badExpirationLength (bytes : Nat) : MotErr
  | assertionFailed : MotErr
  | missingName : MotErr
  | keyError : MotErr
  | outOfRange : MotErr
  | unknownNoSize : MotErr
  | fuelExhausted : MotErr
deriving DecidableEq, Repr

/-- `msc.int_to_bitarray v w`: the `w`-bit big-endian encoding of `v`.
Modelled from the spec: the `msc` helper is an external collaborator
("big-endian integer packing of arbitrary width", spec section 2 item 1). -/
def intToBitarray (v w : Nat) : Bits :=
  (List.range w).map (fun i => Nat.testBit v (w - 1 - i))

/-- Value of a bit string read as a big-endian binary numeral
(`int(bits.to01(), 2)` in the source, for a non-empty slice). -/
def bitsToNat (bs : Bits) : Nat :=
  bs.foldl (fun a b => 2 * a + (if b then 1 else 0)) 0

/-- `int(bits.to01(), 2)`: raises `ValueError` on an empty bit string. -/
def pyBitsToInt (bs : Bits) : Except MotErr Nat :=
  if bs.isEmpty then .error .sliceEmpty else .ok (bitsToNat bs)

/-- `int(bits[a:b].to01(), 2)`: Python slicing truncates at the end of the
array, and the conversion raises only when the slice is empty. -/
def pySliceInt (bs : Bits) (a b : Nat) : Except MotErr Nat :=
  pyBitsToInt ((bs.drop a).take (b - a))

/-- `bits[i]` on a bitarray: `IndexError` when out of range. -/
def pyIndex (bs : Bits) (i : Nat) : Except MotErr Bool :=
  match bs.drop i with
  | [] => .error .indexOOB
  | b :: _ => .ok b

/-- Byte strings to bits, 8 bits per byte, MSB first
(`bitarray.frombytes` / `bitarray.fromstring`). -/
def bytesToBits (bs : List Nat) : Bits :=
  bs.foldr (fun b acc => intToBitarray b 8 ++ acc) []

/-- Bits to a byte string (`bitarray.tostring`): a trailing partial byte is
padded with zero bits. -/
def bitsToBytes : Bits → List Nat
  | b0 :: b1 :: b2 :: b3 :: b4 :: b5 :: b6 :: b7 :: rest =>
      bitsToNat [b0, b1, b2, b3, b4, b5, b6, b7] :: bitsToBytes rest
  | [] => []
  | l => [bitsToNat (l ++ List.replicate (8 - l.length) false)]

@[simp] theorem length_intToBitarray (v w : Nat) : (intToBitarray v w).length = w := by
  simp [intToBitarray]

theorem length_bytesToBits (bs : List Nat) : (bytesToBits bs).length = 8 * bs.length := by
  induction bs with
  | nil => simp [bytesToBits]
  | cons b rest ih =>
      simp only [bytesToBits, List.foldr_cons] at *
      simp [List.length_append, ih]
      ring

/-! ## Time codecs (source lines 113-205) -/

/-- A `datetime.datetime` as consumed by `encode_absolute_time`.  The
embedding is timezone-naive: the `astimezone(tzutc())` adjustment in the
source is the identity on the UTC instants the spec concerns. -/
structure Timepoint where
  year : Nat
  month : Nat
  day : Nat
  hour : Nat
  minute : Nat
  second : Nat
  microsecond : Nat
deriving DecidableEq, Repr

/-- `encode_absolute_time` (source lines 113-154).  `None` encodes as 32
zero bits ("NOW").  Python 2 `/` on ints is floor division, mirrored with
`Int.fdiv`; `int(jd - 2400000.5)` truncates toward zero, which for the
integer `jd` is `jd - 2400001` when `jd ≥ 2400001` and `jd - 2400000`
otherwise. -/
def encodeAbsoluteTime : Option Timepoint → Bits
  | none => List.replicate 32 false
  | some tp =>
      let a : Int := (14 - (tp.month : Int)).fdiv 12
      let y : Int := (tp.year : Int) + 4800 - a
      let m : Int := (tp.month : Int) + 12 * a - 3
      let jdn : Int := (tp.day : Int) + (153 * m + 2).fdiv 5 + 365 * y
        + y.fdiv 4 - y.fdiv 100 + y.fdiv 400 - 32045
      let jd : Int := jdn + ((tp.hour : Int) - 12).fdiv 24
        + (tp.minute : Int).fdiv 1440 + (tp.second : Int).fdiv 86400
      let mjd : Int := if jd ≥ 2400001 then jd - 2400001 else jd - 2400000
      [true] ++ intToBitarray mjd.toNat 17 ++ intToBitarray 0 2 ++
      (if tp.second > 0 then
        [true] ++ intToBitarray tp.hour 5 ++ intToBitarray tp.minute 6
          ++ intToBitarray tp.second 6 ++ intToBitarray (tp.microsecond / 1000) 10
      else
        [false] ++ intToBitarray tp.hour 5 ++ intToBitarray tp.minute 6)

/-- Civil date from a count of days since 1970-01-01 (Gregorian), used to
model `datetime.fromtimestamp` in `mjd_to_date` (UTC locale assumed). -/
def civilFromDays (days : Int) : Nat × Nat × Nat :=
  let z := days + 719468
  let era := z.fdiv 146097
  let doe := (z - era * 146097).toNat
  let yoe := (doe - doe / 1460 + doe / 36524 - doe / 146096) / 365
  let doy := doe - (365 * yoe + yoe / 4 - yoe / 100)
  let mp := (5 * doy + 2) / 153
  let d := doy - (153 * mp + 2) / 5 + 1
  let m := if mp < 10 then mp + 3 else mp - 9
  let y : Int := (yoe : Int) + era * 400 + (if m ≤ 2 then 1 else 0)
  (y.toNat, m, d)

/-- `mjd_to_date` (source lines 156-157): `fromtimestamp((mjd - 40587) * 86400)`,
i.e. midnight of the day `mjd - 40587` days after the Unix epoch. -/
def mjdToDate (mjd : Nat) : Timepoint :=
  let (y, m, d) := civilFromDays ((mjd : Int) - 40587)
  ⟨y, m, d, 0, 0, 0, 0⟩

/-- `decode_absolute_time` (source lines 159-175).  An all-zero bit string
decodes to `None` ("NOW").  The source calls `timepoint.replace(...)`
without binding the result, so the hour/minute/second/millisecond reads
only matter for the `ValueError` they can raise on an empty slice; the
returned instant is always midnight of the MJD date. -/
def decodeAbsoluteTime (bits : Bits) : Except MotErr (Option Timepoint) :=
  if bits.all (fun b => b = false) then .ok none
  else do
    let mjd ← pySliceInt bits 1 18
    let utcFlag ← pyIndex bits 20
    if utcFlag then do
      let _ ← pySliceInt bits 21 26
      let _ ← pySliceInt bits 26 32
      let _ ← pySliceInt bits 32 38
      let _ ← pySliceInt bits 38 48
      pure (some (mjdToDate mjd))
    else do
      let _ ← pySliceInt bits 21 26
      let _ ← pySliceInt bits 26 32
      pure (some (mjdToDate mjd))

/-- `encode_relative_time` (source lines 177-202).  The offset models the
`timedelta` argument as a whole number of seconds; `offset.days` is
`offset / 86400` and `offset.seconds` is `offset % 86400`.  The branch
bounds are `timedelta(minutes=127) = 7620 s`, `timedelta(minutes=1891) =
113460 s`, `timedelta(hours=127) = 457200 s` and `timedelta(hours=64*24) =
5529600 s`.  The fourth branch reproduces the source verbatim, including
the transposed `int_to_bitarray` arguments `(2, 3)` and `(6, days)`. -/
def encodeRelativeTime (offset : Nat) : Except MotErr Bits :=
  let days := offset / 86400
  let seconds := offset % 86400
  if offset < 7620 then
    let minutes := seconds / 60
    let twoMinutes := minutes / 2
    .ok (intToBitarray 0 2 ++ intToBitarray twoMinutes 6)
  else if offset < 113460 then
    let minutes := seconds / 60
    let halfhours := minutes / 30
    .ok (intToBitarray 1 2 ++ intToBitarray halfhours 6)
  else if offset < 457200 then
    let hours := seconds / 3600 + days * 24
    let twohours := hours / 2
    .ok (intToBitarray 2 2 ++ intToBitarray twohours 6)
  else if offset < 5529600 then
    .ok (intToBitarray 2 3 ++ intToBitarray 6 days)
  else .error .outOfRange

/-- `decode_relative_time` (source lines 204-205): unconditionally raises
`ValueError('decoding of relative time parameter not done yet')`. -/
def decodeRelativeTime (_bits : Bits) : Except MotErr Nat :=
  .error .notImplemented

/-! ## Content type and header parameters (source lines 10-66, 216-433) -/

/-- `ContentType` (source lines 10-25): a (type, subtype) pair with
structural equality. -/
structure ContentType where
  type : Nat
  subtype : Nat
deriving DecidableEq, Repr

/-- The `HeaderParameter` variant family (source lines 299-433).  Byte
payloads (names, MIME strings) are `List Nat`; a relative expiration
carries its `timedelta` offset in seconds; an absolute expiration carries
an optional instant (`None` meaning "NOW"). -/
inductive HeaderParam where
  | contentName (charset : Nat) (name : List Nat) : HeaderParam
  | mimeType (mimetype : List Nat) : HeaderParam
  | relativeExpiration (offset : Nat) : HeaderParam
  | absoluteExpiration (timepoint : Option Timepoint) : HeaderParam
  | compression (type : Nat) : HeaderParam
  | priority (p : Nat) : HeaderParam
deriving DecidableEq, Repr

/-- The parameter id each variant passes to `HeaderParameter.__init__`:
ContentName 12, MimeType 16, RelativeExpiration 4, AbsoluteExpiration 4,
Compression 17, Priority 10. -/
def HeaderParam.paramId : HeaderParam → Nat
  | .contentName _ _ => 12
  | .mimeType _ => 16
  | .relativeExpiration _ => 4
  | .absoluteExpiration _ => 4
  | .compression _ => 17
  | .priority _ => 10

/-- `encode_data` of each variant (source lines 314-321, 342-345, 378-379,
390-391, 401-402, 428-429).  Only the relative-expiration payload can fail
(`encode_relative_time` raises on out-of-range offsets). -/
def HeaderParam.encodeData : HeaderParam → Except MotErr Bits
  | .contentName charset name =>
      .ok (intToBitarray charset 4 ++ intToBitarray 0 4 ++ bytesToBits name)
  | .mimeType m => .ok (bytesToBits m)
  | .relativeExpiration offset => encodeRelativeTime offset
  | .absoluteExpiration tp => .ok (encodeAbsoluteTime tp)
  | .compression t => .ok (intToBitarray t 8)
  | .priority p => .ok (intToBitarray p 8)

/-- The preamble construction of `HeaderParameter.encode` (source lines
223-255) applied to already-encoded payload bits.  `data_length` is
`len(data.tobytes())`, i.e. the bit length rounded up to whole bytes.  The
`if`/`elif` chain has no final `else`: a payload longer than 32770 bytes is
emitted with no preamble at all. -/
def encodeRaw (id : Nat) (data : Bits) : Bits :=
  let dataLength := (data.length + 7) / 8
  let pre : Bits :=
    if dataLength = 0 then intToBitarray 0 2 ++ intToBitarray id 6
    else if dataLength = 1 then intToBitarray 1 2 ++ intToBitarray id 6
    else if dataLength = 4 then intToBitarray 2 2 ++ intToBitarray id 6
    else if dataLength ≤ 127 then
      intToBitarray 3 2 ++ intToBitarray id 6 ++ [false] ++ intToBitarray dataLength 7
    else if dataLength ≤ 32770 then
      intToBitarray 3 2 ++ intToBitarray id 6 ++ [true] ++ intToBitarray dataLength 15
    else []
  pre ++ data

/-- `HeaderParameter.encode` (source lines 223-255): encode the payload,
then frame it with the PLI preamble. -/
def HeaderParam.encode (p : HeaderParam) : Except MotErr Bits := do
  let data ← p.encodeData
  pure (encodeRaw p.paramId data)

/-- `ExpirationParameter.decode_data` (source lines 353-360): one payload
byte means a relative expiration (whose decoder is unimplemented), 4 or 6
bytes an absolute one, anything else raises. -/
def decodeExpiration (data : Bits) : Except MotErr HeaderParam :=
  if data.length / 8 = 1 then do
    let off ← decodeRelativeTime data
    pure (.relativeExpiration off)
  else if data.length / 8 = 4 ∨ data.length / 8 = 6 then do
    let tp ← decodeAbsoluteTime data
    pure (.absoluteExpiration tp)
  else .error (.badExpirationLength (data.length / 8))

/-- The decoder registry `HeaderParameter.decoders` (source lines 557-562)
applied to a parameter id and payload: ContentName (12), MimeType (16),
Expiration (4), Compression (17) and Priority (10).  `Priority.__init__`
asserts `0 <= priority <= 255`. -/
def decodeParam (paramId : Nat) (data : Bits) : Except MotErr HeaderParam :=
  if paramId = 12 then do
    let charset ← pySliceInt data 0 4
    pure (.contentName charset (bitsToBytes (data.drop 8)))
  else if paramId = 16 then pure (.mimeType (bitsToBytes data))
  else if paramId = 4 then decodeExpiration data
  else if paramId = 17 then do
    let v ← pyBitsToInt data
    pure (.compression v)
  else if paramId = 10 then do
    let v ← pyBitsToInt data
    if v ≤ 255 then pure (.priority v) else .error .assertionFailed
  else .error (.unknown paramId data)

/-- The ids present in the decoder registry (source lines 557-562). -/
def knownParamIds : List Nat := [12, 16, 4, 17, 10]

/-- `HeaderParameter.from_bits` (source lines 260-297).  Reads the PLI and
parameter id, determines `data_start`/`data_length`, slices the payload,
checks the payload length against the signalled one, raises
`UnknownHeaderParameter` (with the raw span) for unregistered ids and
otherwise dispatches to the registered decoder.  Returns the parameter and
its total size in bytes. -/
def fromBits (bits : Bits) (i : Nat) : Except MotErr (HeaderParam × Nat) := do
  let pli ← pySliceInt bits i (i + 2)
  let paramId ← pySliceInt bits (i + 2) (i + 8)
  let (dataStart, dataLength) ←
    if pli = 0 then pure ((1 : Nat), (0 : Nat))
    else if pli = 1 then pure ((1 : Nat), (1 : Nat))
    else if pli = 2 then pure ((1 : Nat), (4 : Nat))
    else do
      let ext ← pyIndex bits (i + 8)
      if ext then do
        let dl ← pySliceInt bits (i + 9) (i + 24)
        pure ((3 : Nat), dl)
      else do
        let dl ← pySliceInt bits (i + 9) (i + 16)
        pure ((2 : Nat), dl)
  let data := (bits.drop (i + dataStart * 8)).take (dataLength * 8)
  if dataLength ≠ data.length / 8 then
    .error (.malformed dataLength (data.length / 8))
  else if knownParamIds.contains paramId then do
    let param ← decodeParam paramId data
    pure (param, dataStart + dataLength)
  else
    .error (.unknown paramId ((bits.drop i).take (dataStart * 8 + dataLength * 8)))

/-! ## Carousel reassembly state (source lines 564-764) -/

/-- A datagroup record as consumed by the reassembler (an external `msc`
record per spec section 3: transport_id, type (3=header, 4=body,
6=directory), segment_index, last flag, and opaque data bytes).  Spec
section 3 drops duplicates "by object identity equality"; record equality
is structural here, so two field-identical datagroups are the same
object. -/
structure Datagroup where
  transport_id : Nat
  type : Nat
  segment_index : Nat
  last : Bool
  data : List Nat
deriving DecidableEq, Repr

/-- A parsed directory table: transport id to (content type, parameters),
as produced by `decode_directory_object`. -/
abbrev DirTable := List (Nat × ContentType × List HeaderParam)

/-- The `Cache` (source lines 728-730): a dict from transport id to a
sorted list of datagroups, plus the memoized parsed directory.  Python 2
dict iteration order is unspecified; the embedding fixes it to insertion
order. -/
structure Cache where
  entries : List (Nat × List Datagroup)
  directory : Option DirTable
deriving DecidableEq, Repr

/-- `cache.get(t, [])` / `cache[t]` (the source only indexes present
keys; the embedding totalizes the lookup with `[]`). -/
def cacheGet (c : Cache) (t : Nat) : List Datagroup :=
  ((c.entries.find? (fun kv => kv.1 = t)).map (fun kv => kv.2)).getD []

/-- `cache[t] = items`: dict assignment, replacing in place or appending. -/
def cacheSet (c : Cache) (t : Nat) (items : List Datagroup) : Cache :=
  { c with entries :=
      if c.entries.any (fun kv => kv.1 = t) then
        c.entries.map (fun kv => if kv.1 = t then (t, items) else kv)
      else c.entries ++ [(t, items)] }

/-- `cache.pop(t)`. -/
def cachePop (c : Cache) (t : Nat) : Cache :=
  { c with entries := c.entries.filter (fun kv => ¬ kv.1 = t) }

/-- `cache.keys()` (a snapshot list in Python 2). -/
def cacheKeys (c : Cache) : List Nat := c.entries.map (fun kv => kv.1)

/-- The sort key comparison of `sorted(items, key=lambda x: (x.get_type(),
x.segment_index))`: strict lexicographic (type, segment_index) order. -/
def dgLt (d x : Datagroup) : Bool :=
  d.type < x.type ∨ (d.type = x.type ∧ d.segment_index < x.segment_index)

/-- Stable insertion used to model Python's stable `sorted`. -/
def insertDg (d : Datagroup) : List Datagroup → List Datagroup
  | [] => [d]
  | x :: xs => if dgLt d x then d :: x :: xs else x :: insertDg d xs

/-- `sorted(items, key=lambda x: (x.get_type(), x.segment_index))`: a
stable sort by (type, segment_index). -/
def sortDg (l : List Datagroup) : List Datagroup :=
  l.foldl (fun acc d => insertDg d acc) []

/-! ## Completeness check (source lines 564-602) -/

/-- The run test shared by both branches of `check_type_complete` (source
lines 579-589): non-empty, first segment index 0, final datagroup flagged
last, and consecutive segment indices. -/
def contiguousSeg : List Datagroup → Bool
  | [] => true
  | [_] => true
  | a :: b :: rest => (b.segment_index = a.segment_index + 1) && contiguousSeg (b :: rest)

/-- Lines 579-589 of `check_type_complete`: fail on an empty selection, on
a first segment index other than 0, on an unset final `last` flag, or on a
gap in the segment indices. -/
def checkRun (datagroups : List Datagroup) : Bool :=
  match datagroups with
  | [] => false
  | d0 :: _ =>
      (d0.segment_index = 0 : Bool) &&
      (datagroups.getLast?.elim false (fun d => d.last)) &&
      contiguousSeg datagroups

/-- The `else` branch of `check_type_complete` (source lines 572-578): scan
the cache keys for the first entry whose head datagroup has the requested
type and take that whole entry (the search stops at the first match).  An
empty entry would raise `IndexError` in Python; entries are never empty. -/
def globalScan (c : Cache) (ty : Nat) : List Datagroup :=
  match c.entries.find? (fun kv => kv.2.head?.elim false (fun d => d.type = ty)) with
  | some kv => kv.2
  | none => []

/-- `check_type_complete(type, transport_id)` (source lines 568-589).
`if transport_id:` is Python truthiness: false both for `None` and for the
transport id 0, in which case the global scan is used instead of
`cache[t]`. -/
def checkTypeComplete (c : Cache) (t : Nat) (ty : Nat) (tidArg : Option Nat) : Bool :=
  let datagroups :=
    if tidArg.getD 0 ≠ 0 then (cacheGet c t).filter (fun x => x.type = ty)
    else globalScan c ty
  checkRun datagroups

/-- `is_complete` (source lines 564-602): bodies (type 4) for `t` must be
complete, and then either the type-3 header run for `t` or the first
type-6 entry found in the cache. -/
def isComplete (t : Nat) (c : Cache) : Bool :=
  checkTypeComplete c t 4 (some t) &&
  (checkTypeComplete c t 3 (some t) || checkTypeComplete c t 6 none)

/-! ## Object compilation (source lines 604-726) -/

/-- The parameter kind used as the key of `MotObject._parameters` (the
Python class name of the parameter). -/
def HeaderParam.key : HeaderParam → Nat
  | .contentName _ _ => 0
  | .mimeType _ => 1
  | .relativeExpiration _ => 2
  | .absoluteExpiration _ => 3
  | .compression _ => 4
  | .priority _ => 5

/-- `MotObject` (source lines 68-111): transport id, content type, body
bytes and the parameter dict keyed by parameter kind. -/
structure MotObject where
  transport_id : Nat
  content_type : ContentType
  body : List Nat
  params : List (Nat × HeaderParam)
deriving DecidableEq, Repr

/-- `MotObject.add_parameter` (source lines 78-81): dict assignment keyed
by the parameter's class, replacing in place or appending. -/
def addParameter (ps : List (Nat × HeaderParam)) (p : HeaderParam) : List (Nat × HeaderParam) :=
  if ps.any (fun kv => kv.1 = p.key) then
    ps.map (fun kv => if kv.1 = p.key then (p.key, p) else kv)
  else ps ++ [(p.key, p)]

/-- `MotObject(name, body, content_type, transport_id)` followed by
`add_parameter` for every compiled parameter (source lines 720-721): the
constructor stores the ContentName first, then the loop adds the rest
(later parameters of the same kind overwrite). -/
def mkMotObject (name : HeaderParam) (body : List Nat) (ct : ContentType)
    (tid : Nat) (params : List HeaderParam) : MotObject :=
  { transport_id := tid, content_type := ct, body := body,
    params := params.foldl addParameter (addParameter [] name) }

/-- The header-parameter loop of `compile_object` (source lines 676-687):
starting at bit 56, parse parameters until the end of the accumulated
header.  An `UnknownHeaderParameter` with an empty raw span raises; a
non-empty one is skipped by its raw length.  Any other error propagates
(the bare `except: raise` at lines 688-690).  Fuel bounds the loop; every
iteration consumes at least one byte, so `bits.length + 1` suffices. -/
def paramLoop (bits : Bits) : Nat → Nat → Except MotErr (List HeaderParam)
  | _, 0 => .error .fuelExhausted
  | i, fuel + 1 =>
      if i < bits.length then
        match fromBits bits i with
        | .ok (p, size) => do
            let rest ← paramLoop bits (i + size * 8) fuel
            pure (p :: rest)
        | .error (.unknown _ raw) =>
            if raw.length = 0 then .error .unknownNoSize
            else paramLoop bits (i + (raw.length / 8) * 8) fuel
        | .error e => .error e
      else pure []

/-- One parse of the accumulated header inside `compile_object` (source
lines 669-687): content type from bits 41-47 and 47-56, then the
parameter loop from bit 56. -/
def parseHeaderBits (bits : Bits) : Except MotErr (ContentType × List HeaderParam) := do
  let ty ← pySliceInt bits 41 47
  let sub ← pySliceInt bits 47 56
  let params ← paramLoop bits 56 (bits.length + 1)
  pure (⟨ty, sub⟩, params)

/-- The header-compilation loop of `compile_object` (source lines 663-690):
for each type-3 datagroup, append its data to the accumulated header and
re-parse the whole header, accumulating all parsed parameters; the content
type is the one of the last parse.  Returns `none` when there was no
type-3 datagroup at all (`if not len(header)` then falls through to the
directory branch; a type-3 datagroup with empty data makes the parse of
the empty header raise first, as in the source). -/
def compileHeaderAux : List Datagroup → List Nat → List HeaderParam →
    Option ContentType → Except MotErr (Option (ContentType × List HeaderParam))
  | [], _, params, ct? => pure (ct?.map (fun ct => (ct, params)))
  | dg :: rest, header, params, _ => do
      let header := header ++ dg.data
      let (ct, ps) ← parseHeaderBits (bytesToBits header)
      compileHeaderAux rest header (params ++ ps) (some ct)

/-- The per-entry parameter loop of `decode_directory_object` (source
lines 642-651): parse parameters while `i < end`; on any error, jump to
`end` and stop (the error is only logged).  Returns the parameters and the
final bit position. -/
def dirParamLoop (bits : Bits) (endPos : Nat) :
    Nat → Nat → List HeaderParam → List HeaderParam × Nat
  | i, 0, acc => (acc, i)
  | i, fuel + 1, acc =>
      if i < endPos then
        match fromBits bits i with
        | .ok (p, size) => dirParamLoop bits endPos (i + size * 8) fuel (acc ++ [p])
        | .error _ => (acc, endPos)
      else (acc, i)

/-- `headers[transport_id] = (content_type, parameters)`: dict assignment
on the directory table. -/
def tblSet (tbl : DirTable) (tid : Nat) (v : ContentType × List HeaderParam) : DirTable :=
  if tbl.any (fun kv => kv.1 = tid) then
    tbl.map (fun kv => if kv.1 = tid then (tid, v) else kv)
  else tbl ++ [(tid, v)]

/-- The header-entry loop of `decode_directory_object` (source lines
627-653): read transport id, core header and parameters for each entry
until the bits are exhausted.  Every entry consumes at least 72 bits, so
fuel `bits.length + 1` suffices. -/
def dirEntriesLoop (bits : Bits) : Nat → Nat → DirTable → Except MotErr DirTable
  | _, 0, acc => pure acc
  | i, fuel + 1, acc =>
      if i < bits.length then do
        let tid ← pySliceInt bits i (i + 16)
        let i := i + 16
        let _bodySize ← pySliceInt bits i (i + 28)
        let headerSize ← pySliceInt bits (i + 28) (i + 41)
        let ty ← pySliceInt bits (i + 41) (i + 47)
        let sub ← pySliceInt bits (i + 47) (i + 56)
        let endPos := i + headerSize * 8
        let (params, i') := dirParamLoop bits endPos (i + 56) (bits.length + 1) []
        dirEntriesLoop bits i' fuel (tblSet acc tid (⟨ty, sub⟩, params))
      else pure acc

/-- `decode_directory_object` (source lines 604-653): parse the directory
header fields (their values are only logged, but reading an empty slice
raises), skip the directory extension and loop over the header entries. -/
def decodeDirectoryObject (data : List Nat) : Except MotErr DirTable := do
  let bits := bytesToBits data
  let _totalSize ← pySliceInt bits 2 32
  let _numberOfObjects ← pySliceInt bits 32 48
  let _carouselPeriod ← pySliceInt bits 48 72
  let _segmentSize ← pySliceInt bits 75 88
  let extLen ← pySliceInt bits 88 104
  dirEntriesLoop bits (104 + extLen * 8) (bits.length + 1) []

/-- The directory branch of `compile_object` (source lines 693-702).
`if not cache.directory:` is Python truthiness: the directory is rebuilt
both when it is unset and when it parsed to an empty table.  The raw
directory is the concatenation of the data of every entry whose head
datagroup has type 6; a parse failure propagates before the memoizing
assignment, so only a successful parse mutates the cache. -/
def buildDirectory (c : Cache) : Except (MotErr × Cache) (DirTable × Cache) :=
  match c.directory with
  | some (kv :: tbl) => .ok (kv :: tbl, c)
  | _ =>
      match decodeDirectoryObject
          ((c.entries.filter (fun kv => kv.2.head?.elim false (fun d => d.type = 6))).foldl
            (fun acc kv => acc ++ (kv.2.map (fun d => d.data)).flatten) []) with
      | .error e => .error (e, c)
      | .ok tbl => .ok (tbl, { c with directory := some tbl })

/-- The tail of `compile_object` (source lines 709-726): concatenate the
type-4 bodies, find the (last) ContentName, raise `MissingName` if there is
none — the cache entry is only popped after the object is built, so a
missing name leaves the entry in place. -/
def finishCompile (t : Nat) (datagroups : List Datagroup) (c : Cache)
    (ct : ContentType) (params : List HeaderParam) :
    Except (MotErr × Cache) (MotObject × Cache) :=
  match params.foldl
      (fun nm? p => match p with | .contentName _ _ => some p | _ => nm?) none with
  | none => .error (.missingName, c)
  | some nm =>
      .ok (mkMotObject nm
        ((datagroups.filter (fun x => x.type = 4)).foldl (fun acc dg => acc ++ dg.data) [])
        ct t params, cachePop c t)

/-- `compile_object` (source lines 655-726).  Header mode when any type-3
datagroup is present, directory mode otherwise; errors carry the cache in
the state Python leaves behind (the entry is never popped on an error,
and a successfully parsed directory stays memoized). -/
def compileObject (t : Nat) (c : Cache) : Except (MotErr × Cache) (MotObject × Cache) :=
  match compileHeaderAux ((cacheGet c t).filter (fun x => x.type = 3)) [] [] none with
  | .error e => .error (e, c)
  | .ok (some (ct, params)) => finishCompile t (cacheGet c t) c ct params
  | .ok none =>
      match buildDirectory c with
      | .error (e, c') => .error (e, c')
      | .ok (tbl, c') =>
          match tbl.find? (fun kv => kv.1 = t) with
          | none => .error (.keyError, c')
          | some (_, ct, params) => finishCompile t (cacheGet c t) c' ct params

/-! ## The decoding loop (source lines 732-764) -/

/-- The ingestion step of `decode_objects` (source lines 751-754): append
the datagroup unless an equal one is present, then re-sort the entry. -/
def ingest (c : Cache) (d : Datagroup) : Cache :=
  let items := cacheGet c d.transport_id
  let items := if items.contains d then items else items ++ [d]
  cacheSet c d.transport_id (sortDg items)

/-- The completeness scan of `decode_objects` (source lines 757-761): for
every key of the (snapshot) key list, compile and yield the object if it
is complete.  An exception from `compile_object` aborts the scan and the
whole generator. -/
def stepScan (c : Cache) : List MotObject × Cache × Option MotErr :=
  (cacheKeys c).foldl
    (fun st t =>
      match st with
      | (os, c', some e) => (os, c', some e)
      | (os, c', none) =>
          if isComplete t c' then
            match compileObject t c' with
            | .ok (o, c'') => (os ++ [o], c'', none)
            | .error (e, c'') => (os, c'', some e)
          else (os, c', none))
    ([], c, none)

/-- The datagroup loop of `decode_objects` over a list source (source
lines 747-761): ingest each datagroup, scan for complete objects and
yield them; a raised exception ends the stream after the objects already
yielded. -/
def decodeObjectsAux : List Datagroup → Cache → List MotObject → List MotObject × Option MotErr
  | [], _, os => (os, none)
  | d :: rest, c, os =>
      let c := ingest c d
      match stepScan c with
      | (newOs, c', none) => decodeObjectsAux rest c' (os ++ newOs)
      | (newOs, _, some e) => (os ++ newOs, some e)

/-- `decode_objects` (source lines 732-764) on a list of datagroups: the
objects the generator yields, together with the exception that ended it,
if any. -/
def decodeObjects (ds : List Datagroup) : List MotObject × Option MotErr :=
  decodeObjectsAux ds ⟨[], none⟩ []

/-! ## Theorems -/

deriving instance DecidableEq for Except

/-- The completeness predicate in the words of the spec: the segment
indices form the contiguous run 0..k (i.e. they are exactly
`0, 1, ..., length-1` in order) and the last element has `last = true`. -/
def specCompleteRun (dgs : List Datagroup) : Prop :=
  dgs.map (fun d => d.segment_index) = List.range dgs.length ∧
  dgs.getLast?.elim false (fun d => d.last) = true

instance : DecidablePred specCompleteRun := fun dgs => by
  unfold specCompleteRun; infer_instance

theorem map_seg_range'_iff (l : List Datagroup) (d0 : Datagroup) :
    (d0 :: l).map (fun d => d.segment_index) =
      List.range' d0.segment_index (l.length + 1) ↔
    contiguousSeg (d0 :: l) = true := by
  induction l generalizing d0 with
  | nil => simp [contiguousSeg, List.range']
  | cons d1 l ih =>
      have hr : List.range' d0.segment_index (l.length + 1 + 1) =
          d0.segment_index :: List.range' (d0.segment_index + 1) (l.length + 1) := rfl
      constructor
      · intro h
        simp only [List.map_cons, List.length_cons] at h
        rw [hr] at h
        have h2 : d1.segment_index :: l.map (fun d => d.segment_index) =
            List.range' (d0.segment_index + 1) (l.length + 1) := (List.cons.inj h).2
        have hd1 : d1.segment_index = d0.segment_index + 1 := by
          have h3 := congrArg List.head? h2
          simpa [List.range'] using h3
        have hcont : contiguousSeg (d1 :: l) = true := by
          refine (ih d1).mp ?_
          simp only [List.map_cons, List.length_cons]
          rw [← hd1] at h2
          exact h2
        show ((d1.segment_index = d0.segment_index + 1 : Bool) && contiguousSeg (d1 :: l)) = true
        simp [hd1, hcont]
      · intro h
        have h' : d1.segment_index = d0.segment_index + 1 ∧ contiguousSeg (d1 :: l) = true := by
          simpa [contiguousSeg] using h
        obtain ⟨hd1, hcont⟩ := h'
        have h2 := (ih d1).mpr hcont
        simp only [List.map_cons, List.length_cons] at h2 ⊢
        rw [hr]
        refine congrArg (List.cons _) ?_
        rw [← hd1]
        exact h2

theorem checkRun_eq_true_iff (dgs : List Datagroup) :
    checkRun dgs = true ↔ specCompleteRun dgs := by
  cases dgs with
  | nil => simp [checkRun, specCompleteRun]
  | cons d0 l =>
      simp only [checkRun, specCompleteRun, Bool.and_eq_true, decide_eq_true_eq]
      rw [List.range_eq_range']
      constructor
      · rintro ⟨⟨h0, hlast⟩, hcont⟩
        refine ⟨?_, hlast⟩
        have := (map_seg_range'_iff l d0).mpr hcont
        rw [h0] at this
        simpa using this
      · rintro ⟨hmap, hlast⟩
        have h0 : d0.segment_index = 0 := by
          have := congrArg List.head? hmap
          simpa [List.range'] using this
        refine ⟨⟨h0, hlast⟩, ?_⟩
        refine (map_seg_range'_iff l d0).mp ?_
        rw [h0]
        simpa using hmap

theorem insertDg_of_le (d : Datagroup) (acc : List Datagroup)
    (h : ∀ x ∈ acc, dgLt d x = false) : insertDg d acc = acc ++ [d] := by
  induction acc with
  | nil => rfl
  | cons x xs ih =>
      have hx : dgLt d x = false := h x (by simp)
      simp only [insertDg, hx, Bool.false_eq_true, if_false, List.cons_append]
      refine congrArg (List.cons x) ?_
      exact ih (fun y hy => h y (by simp [hy]))

theorem foldl_insertDg_sorted (l acc : List Datagroup)
    (h : (acc ++ l).Pairwise (fun a b => dgLt b a = false)) :
    l.foldl (fun acc d => insertDg d acc) acc = acc ++ l := by
  induction l generalizing acc with
  | nil => simp
  | cons d rest ih =>
      have hall : ∀ x ∈ acc, dgLt d x = false := by
        rw [List.pairwise_append] at h
        intro x hx
        exact h.2.2 x hx d (by simp)
      have hins : insertDg d acc = acc ++ [d] := insertDg_of_le d acc hall
      have hperm : acc ++ d :: rest = (acc ++ [d]) ++ rest := by simp
      calc (d :: rest).foldl (fun acc d => insertDg d acc) acc
          = rest.foldl (fun acc d => insertDg d acc) (acc ++ [d]) := by
            simp [List.foldl_cons, hins]
        _ = (acc ++ [d]) ++ rest := ih (acc ++ [d]) (by rw [← hperm]; exact h)
        _ = acc ++ d :: rest := by simp

theorem sortDg_of_sorted (l : List Datagroup)
    (h : l.Pairwise (fun a b => dgLt b a = false)) : sortDg l = l := by
  have := foldl_insertDg_sorted l [] (by simpa using h)
  simpa [sortDg] using this

theorem find?_map_replace (es : List (Nat × List Datagroup)) (t : Nat)
    (l : List Datagroup) (h : es.any (fun kv => kv.1 = t) = true) :
    (es.map (fun kv => if kv.1 = t then (t, l) else kv)).find?
      (fun kv => kv.1 = t) = some (t, l) := by
  induction es with
  | nil => simp at h
  | cons kv es ih =>
      by_cases hkv : kv.1 = t
      · simp [List.find?, hkv]
      · have h' : es.any (fun kv => kv.1 = t) = true := by
          simpa [List.any_cons, hkv] using h
        simpa [List.find?, hkv] using ih h'

theorem find?_append_new (es : List (Nat × List Datagroup)) (t : Nat)
    (l : List Datagroup) (h : es.any (fun kv => kv.1 = t) = false) :
    (es ++ [(t, l)]).find? (fun kv => kv.1 = t) = some (t, l) := by
  induction es with
  | nil => simp [List.find?]
  | cons kv es ih =>
      have hkv : ¬ kv.1 = t := by
        intro hk
        simp [List.any_cons, hk] at h
      have h' : es.any (fun kv => kv.1 = t) = false := by
        simpa [List.any_cons, hkv] using h
      simpa [List.find?, hkv] using ih h'

theorem cacheGet_cacheSet (c : Cache) (t : Nat) (l : List Datagroup) :
    cacheGet (cacheSet c t l) t = l := by
  unfold cacheGet cacheSet
  cases hany : c.entries.any (fun kv => kv.1 = t) with
  | true =>
      simp only [hany, if_true]
      rw [find?_map_replace c.entries t l hany]
      rfl
  | false =>
      simp only [hany, Bool.false_eq_true, if_false]
      rw [find?_append_new c.entries t l hany]
      rfl

theorem finishCompile_error (t : Nat) (dgs : List Datagroup) (c : Cache)
    (ct : ContentType) (params : List HeaderParam) (e : MotErr) (c' : Cache)
    (h : finishCompile t dgs c ct params = .error (e, c')) :
    e = .missingName ∧ c' = c := by
  unfold finishCompile at h
  split at h
  · simp only [Except.error.injEq, Prod.mk.injEq] at h
    exact ⟨h.1.symm, h.2.symm⟩
  · simp at h

theorem buildDirectory_ok_entries (c : Cache) (tbl : DirTable) (c' : Cache)
    (h : buildDirectory c = .ok (tbl, c')) : c'.entries = c.entries := by
  unfold buildDirectory at h
  split at h
  · simp only [Except.ok.injEq, Prod.mk.injEq] at h
    rw [← h.2]
  · split at h
    · simp at h
    · simp only [Except.ok.injEq, Prod.mk.injEq] at h
      rw [← h.2]

theorem buildDirectory_error_cache (c : Cache) (e : MotErr) (c' : Cache)
    (h : buildDirectory c = .error (e, c')) : c' = c := by
  unfold buildDirectory at h
  split at h
  · simp at h
  · split at h
    · simp only [Except.error.injEq, Prod.mk.injEq] at h
      rw [← h.2]
    · simp at h

/-- Claim C1 (code bug): the parameter round-trip decode(encode(v)) == v
fails on the code.  Encoding `RelativeExpiration(4 minutes)` produces a
valid one-byte-payload parameter, but decoding it dispatches (via the
shared expiration id 4 and the one-byte payload) to
`decode_relative_time`, which unconditionally raises
`ValueError('decoding of relative time parameter not done yet')`. -/
theorem relativeExpiration_roundtrip_fails :
    (HeaderParam.encode (.relativeExpiration 240)).bind (fun bs => fromBits bs 0) =
      .error .notImplemented := by decide

/-- Claim C3 (code bug): for a 10-day duration, `encode_relative_time`
takes the fourth granularity branch, whose transposed `int_to_bitarray`
arguments emit the value 2 in a 3-bit field followed by the value 6 in a
`days`-bit field — a 13-bit payload instead of the one-byte payload with
granularity tag 3 and 6-bit day count that the spec states. -/
theorem encodeRelativeTime_gran3_malformed :
    encodeRelativeTime 864000 = .ok (intToBitarray 2 3 ++ intToBitarray 6 10) ∧
    (intToBitarray 2 3 ++ intToBitarray 6 10).length = 13 := by decide

/-- Claim C4 (confirmed): for every non-null timepoint, the absolute-time
payload is exactly 6 bytes (48 bits, long form) when the seconds field is
positive and exactly 4 bytes (32 bits, short form) otherwise. -/
theorem encodeAbsoluteTime_length (tp : Timepoint) :
    (encodeAbsoluteTime (some tp)).length = 8 * (if 0 < tp.second then 6 else 4) := by
  unfold encodeAbsoluteTime
  by_cases h : 0 < tp.second
  · simp [h]
  · simp [h]

/-- Claim C8, counterexample: a duration of 63 days plus one hour exceeds
63 days, yet `encode_relative_time` does not raise — the fourth branch
accepts every duration below 64 days. -/
theorem encodeRelativeTime_over63days_no_error :
    63 * 86400 < 5446800 ∧
    encodeRelativeTime 5446800 = .ok (intToBitarray 2 3 ++ intToBitarray 6 63) := by decide

/-- Claim C8, amended: `encode_relative_time` succeeds exactly on
durations strictly below 64 days (5529600 seconds) and raises `OutOfRange`
on all others; in particular it raises for no duration of 63 days or
less, and it is pure, so no state is mutated. -/
theorem encodeRelativeTime_ok_iff (n : Nat) :
    (∃ bs, encodeRelativeTime n = .ok bs) ↔ n < 5529600 := by
  unfold encodeRelativeTime
  split_ifs with h1 h2 h3 h4 <;> simp <;> omega

/-- Claim C9, counterexample: a MimeType whose payload is 32771 bytes is
not rejected by `HeaderParameter.encode`; the `if`/`elif` chain falls
through and the returned bit string is exactly the raw payload, with no
preamble at all. -/
theorem encode_oversize_payload_unframed :
    HeaderParam.encode (.mimeType (List.replicate 32771 65)) =
      .ok (bytesToBits (List.replicate 32771 65)) := by
  have hlen : (bytesToBits (List.replicate 32771 65)).length = 262168 := by
    rw [length_bytesToBits, List.length_replicate]
  show Except.ok (encodeRaw 16 (bytesToBits (List.replicate 32771 65))) = _
  refine congrArg Except.ok ?_
  unfold encodeRaw
  rw [hlen]
  norm_num

/-- Claim C9, amended: every payload whose encoded byte length is at most
32770 is framed with one of the PLI preamble encodings of the table (PLI
0, 1 or 2 with a one-byte preamble, or PLI 3 with the Ext=0 or Ext=1
length field). -/
theorem encodeRaw_uses_pli_table (id : Nat) (data : Bits)
    (h : (data.length + 7) / 8 ≤ 32770) :
    encodeRaw id data = intToBitarray 0 2 ++ intToBitarray id 6 ++ data ∨
    encodeRaw id data = intToBitarray 1 2 ++ intToBitarray id 6 ++ data ∨
    encodeRaw id data = intToBitarray 2 2 ++ intToBitarray id 6 ++ data ∨
    encodeRaw id data = intToBitarray 3 2 ++ intToBitarray id 6
      ++ ([false] ++ intToBitarray ((data.length + 7) / 8) 7) ++ data ∨
    encodeRaw id data = intToBitarray 3 2 ++ intToBitarray id 6
      ++ ([true] ++ intToBitarray ((data.length + 7) / 8) 15) ++ data := by
  simp only [encodeRaw]
  split_ifs with h0 h1 h4 hs _hl
  · left; simp [h0]
  · right; left; simp [h1]
  · right; right; left; simp [h4]
  · right; right; right; left; simp [List.append_assoc]
  · right; right; right; right; simp [List.append_assoc]

/-- Witness for the amended claim C9 at a concrete one-byte payload. -/
theorem encodeRaw_uses_pli_table_witness :
    ((([true] : Bits).length + 7) / 8 ≤ 32770 ∧
      (encodeRaw 16 [true] = intToBitarray 0 2 ++ intToBitarray 16 6 ++ [true] ∨
       encodeRaw 16 [true] = intToBitarray 1 2 ++ intToBitarray 16 6 ++ [true] ∨
       encodeRaw 16 [true] = intToBitarray 2 2 ++ intToBitarray 16 6 ++ [true] ∨
       encodeRaw 16 [true] = intToBitarray 3 2 ++ intToBitarray 16 6
         ++ ([false] ++ intToBitarray ((([true] : Bits).length + 7) / 8) 7) ++ [true] ∨
       encodeRaw 16 [true] = intToBitarray 3 2 ++ intToBitarray 16 6
         ++ ([true] ++ intToBitarray ((([true] : Bits).length + 7) / 8) 15) ++ [true])) :=
  ⟨by norm_num, encodeRaw_uses_pli_table 16 [true] (by norm_num)⟩

/-- The cache of the claim C2 counterexample: two entries headed by type-6
datagroups — the first an incomplete directory run, the second a complete
one — and a body-complete entry for transport id 7. -/
def twoDirCache : Cache :=
  ⟨[(1, [⟨1, 6, 0, false, []⟩]), (2, [⟨2, 6, 0, true, []⟩]),
    (7, [⟨7, 4, 0, true, [65]⟩])], none⟩

/-- Claim C2, counterexample: the body run for transport id 7 is complete
and the cache does hold a key (2) with a complete type-6 run, so the claim
as stated requires `is_complete(7, cache)` to be true; but the global scan
stops at the first key whose head has type 6 (key 1, an incomplete run),
so `is_complete` returns false. -/
theorem isComplete_first_directory_entry_only :
    isComplete 7 twoDirCache = false ∧
    specCompleteRun ((cacheGet twoDirCache 7).filter (fun x => x.type = 4)) ∧
    specCompleteRun (cacheGet twoDirCache 2) ∧
    (cacheGet twoDirCache 2).all (fun x => x.type = 6) = true := by decide

/-- Claim C2, amended: for every transport id t other than 0, is_complete
is true iff the type-4 datagroups of Cache[t] form a contiguous 0..k run
ending in last=true, and either the type-3 datagroups of Cache[t] form
such a run, or the FIRST cache entry whose head datagroup has type 6
(rather than any entry) forms such a run.  (For t = 0 the body check is
misdirected, and for t absent from the cache Python raises KeyError, hence
the membership hypothesis.) -/
theorem isComplete_characterization (t : Nat) (c : Cache) (ht : t ≠ 0)
    (hmem : t ∈ cacheKeys c) :
    isComplete t c = true ↔
      (specCompleteRun ((cacheGet c t).filter (fun x => x.type = 4)) ∧
        (specCompleteRun ((cacheGet c t).filter (fun x => x.type = 3)) ∨
          specCompleteRun (globalScan c 6))) := by
  have h1 : (some t).getD 0 ≠ 0 := by simpa using ht
  have h2 : ¬ ((none : Option Nat).getD 0 ≠ 0) := by simp
  simp only [isComplete, checkTypeComplete, if_pos h1, if_neg h2]
  simp only [Bool.and_eq_true, Bool.or_eq_true]
  rw [checkRun_eq_true_iff, checkRun_eq_true_iff, checkRun_eq_true_iff]

/-- Witness for the amended claim C2 on a concrete complete cache entry. -/
theorem isComplete_characterization_witness :
    (9 : Nat) ≠ 0 ∧
    9 ∈ cacheKeys ⟨[(9, [⟨9, 3, 0, true, [1]⟩, ⟨9, 4, 0, true, [65]⟩])], none⟩ ∧
    (isComplete 9 ⟨[(9, [⟨9, 3, 0, true, [1]⟩, ⟨9, 4, 0, true, [65]⟩])], none⟩ = true ↔
      (specCompleteRun
          ((cacheGet ⟨[(9, [⟨9, 3, 0, true, [1]⟩, ⟨9, 4, 0, true, [65]⟩])], none⟩ 9).filter
            (fun x => x.type = 4)) ∧
        (specCompleteRun
            ((cacheGet ⟨[(9, [⟨9, 3, 0, true, [1]⟩, ⟨9, 4, 0, true, [65]⟩])], none⟩ 9).filter
              (fun x => x.type = 3)) ∨
          specCompleteRun
            (globalScan ⟨[(9, [⟨9, 3, 0, true, [1]⟩, ⟨9, 4, 0, true, [65]⟩])], none⟩ 6)))) :=
  ⟨by decide, by decide,
    isComplete_characterization 9 ⟨[(9, [⟨9, 3, 0, true, [1]⟩, ⟨9, 4, 0, true, [65]⟩])], none⟩
      (by decide) (by decide)⟩

/-- A cache whose single entry holds a parseable type-3 header carrying no
ContentName parameter (just a 7-byte header core) and a complete body. -/
def noNameCache : Cache :=
  ⟨[(7, [⟨7, 3, 0, true, [0, 0, 0, 0, 0, 0, 0]⟩, ⟨7, 4, 0, true, [65]⟩])], none⟩

/-- Claim C5, counterexample: compiling transport id 7 from a header with
no ContentName fails with the missing-name error, but the cache entry is
NOT removed: `raise ValueError('no name parameter found')` at source line
718 executes before `cache.pop(transport_id)` at line 724, so the entry is
still present when the error surfaces. -/
theorem compileObject_missingName_entry_not_removed :
    compileObject 7 noNameCache = .error (.missingName, noNameCache) ∧
    cacheGet noNameCache 7 ≠ [] := by decide

/-- Claim C5, amended: whenever `compile_object` fails with the
missing-name error, the cache entries are left exactly as they were — the
pop happens only after a successful compilation (only the memoized
directory field may have been set on the way). -/
theorem compileObject_missingName_preserves_entries (t : Nat) (c c' : Cache)
    (h : compileObject t c = .error (.missingName, c')) : c'.entries = c.entries := by
  unfold compileObject at h
  split at h
  · simp only [Except.error.injEq, Prod.mk.injEq] at h
    rw [← h.2]
  · exact congrArg Cache.entries (finishCompile_error _ _ _ _ _ _ _ h).2
  · split at h
    next e2 c2 heq =>
      simp only [Except.error.injEq, Prod.mk.injEq] at h
      rw [← h.2]
      exact congrArg Cache.entries (buildDirectory_error_cache c e2 c2 heq)
    next tbl c2 heq =>
      split at h
      · simp at h
      · have h2 := (finishCompile_error _ _ _ _ _ _ _ h).2
        rw [h2]
        exact buildDirectory_ok_entries c tbl c2 heq

/-- Witness for the amended claim C5 at the concrete no-name cache. -/
theorem compileObject_missingName_preserves_entries_witness :
    noNameCache.entries = noNameCache.entries :=
  compileObject_missingName_preserves_entries 7 noNameCache noNameCache (by decide)

/-- Claim C6, counterexample: ingesting a datagroup that shares
(type, segment_index) = (4, 0) with a cached one but differs in its data
appends it — duplicate suppression uses whole-record equality (`d not in
items`), not the (type, segment_index) pair — so Cache[7] ends up with two
datagroups sharing (4, 0). -/
theorem ingest_same_type_segment_kept :
    cacheGet (ingest ⟨[(7, [⟨7, 4, 0, true, [65]⟩])], none⟩ ⟨7, 4, 0, true, [66]⟩) 7 =
      [⟨7, 4, 0, true, [65]⟩, ⟨7, 4, 0, true, [66]⟩] ∧
    ((cacheGet (ingest ⟨[(7, [⟨7, 4, 0, true, [65]⟩])], none⟩ ⟨7, 4, 0, true, [66]⟩) 7).filter
        (fun x => decide (x.type = 4 ∧ x.segment_index = 0))).length = 2 := by decide

/-- Claim C6, amended: ingesting a datagroup that is already present in
Cache[t] as an equal record leaves the entry unchanged (the entry being
sorted by (type, segment_index), which is the invariant the decode loop
maintains); datagroups that share (type, segment_index) but differ in
another field are both kept. -/
theorem ingest_member_unchanged (c : Cache) (d : Datagroup)
    (hmem : d ∈ cacheGet c d.transport_id)
    (hsort : (cacheGet c d.transport_id).Pairwise (fun a b => dgLt b a = false)) :
    cacheGet (ingest c d) d.transport_id = cacheGet c d.transport_id := by
  have hc : (cacheGet c d.transport_id).contains d = true := by
    simpa using hmem
  simp only [ingest, hc, if_true]
  rw [sortDg_of_sorted _ hsort]
  exact cacheGet_cacheSet c d.transport_id _

/-- Witness for the amended claim C6 on a concrete one-entry cache. -/
theorem ingest_member_unchanged_witness :
    cacheGet (ingest ⟨[(3, [⟨3, 4, 0, true, [65]⟩])], none⟩ ⟨3, 4, 0, true, [65]⟩)
        (Datagroup.transport_id ⟨3, 4, 0, true, [65]⟩) =
      cacheGet ⟨[(3, [⟨3, 4, 0, true, [65]⟩])], none⟩
        (Datagroup.transport_id ⟨3, 4, 0, true, [65]⟩) :=
  ingest_member_unchanged ⟨[(3, [⟨3, 4, 0, true, [65]⟩])], none⟩ ⟨3, 4, 0, true, [65]⟩
    (by decide) (by decide)

/-- A one-segment type-3 header for transport id 7 whose data is a 7-byte
header core (content type 0/0) followed by the encoded parameter
`ContentName("T", ISO_LATIN1)` (bytes CC 02 40 54). -/
def hdrSeg : Datagroup := ⟨7, 3, 0, true, [0, 0, 0, 0, 0, 0, 0, 204, 2, 64, 84]⟩

/-- A second header segment carrying the encoded `Priority(4)` (4A 04),
flagged last, with segment index 1. -/
def hdrSeg2 : Datagroup := ⟨7, 3, 1, true, [74, 4]⟩

/-- A body segment (segment 0, flagged last). -/
def bodySegA : Datagroup := ⟨7, 4, 0, true, [65]⟩

/-- A second body segment (segment 1, flagged last). -/
def bodySegB : Datagroup := ⟨7, 4, 1, true, [66]⟩

/-- Claim C7, counterexample: the two listed sequences are permutations of
each other and both decode without error to exactly one object, yet the
objects differ — one order completes a first cycle with header `hdrSeg`
and body `bodySegA` alone, while the other groups `hdrSeg2` into the same
cycle, adding its Priority parameter to the compiled object. -/
theorem decodeObjects_not_permutation_invariant :
    ([hdrSeg, bodySegA, hdrSeg2, bodySegB] : List Datagroup).Perm
      [hdrSeg, hdrSeg2, bodySegA, bodySegB] ∧
    (decodeObjects [hdrSeg, bodySegA, hdrSeg2, bodySegB]).2 = none ∧
    (decodeObjects [hdrSeg, hdrSeg2, bodySegA, bodySegB]).2 = none ∧
    (decodeObjects [hdrSeg, bodySegA, hdrSeg2, bodySegB]).1.length = 1 ∧
    (decodeObjects [hdrSeg, hdrSeg2, bodySegA, bodySegB]).1.length = 1 ∧
    (decodeObjects [hdrSeg, bodySegA, hdrSeg2, bodySegB]).1 ≠
      (decodeObjects [hdrSeg, hdrSeg2, bodySegA, bodySegB]).1 := by decide

/-- The non-terminal first body segment of the single-cycle scenario. -/
def cycBody0 : Datagroup := ⟨7, 4, 0, false, [65]⟩

/-- The terminal second body segment of the single-cycle scenario. -/
def cycBody1 : Datagroup := ⟨7, 4, 1, true, [66]⟩

/-- Claim C7, amended: permutation invariance does hold for a sequence
whose datagroups form exactly one complete cycle — here one complete
header segment and a two-segment body with the last flag only on the
final segment: all six arrival orders yield the same single object and no
error. -/
theorem decodeObjects_single_cycle_all_orders_equal :
    decodeObjects [hdrSeg, cycBody0, cycBody1] = decodeObjects [hdrSeg, cycBody1, cycBody0] ∧
    decodeObjects [hdrSeg, cycBody0, cycBody1] = decodeObjects [cycBody0, hdrSeg, cycBody1] ∧
    decodeObjects [hdrSeg, cycBody0, cycBody1] = decodeObjects [cycBody0, cycBody1, hdrSeg] ∧
    decodeObjects [hdrSeg, cycBody0, cycBody1] = decodeObjects [cycBody1, hdrSeg, cycBody0] ∧
    decodeObjects [hdrSeg, cycBody0, cycBody1] = decodeObjects [cycBody1, cycBody0, hdrSeg] ∧
    (decodeObjects [hdrSeg, cycBody0, cycBody1]).1.length = 1 ∧
    (decodeObjects [hdrSeg, cycBody0, cycBody1]).2 = none := by decide

/-- Claim C10 (confirmed): for transport id 0 the body check of
`is_complete` does not consult Cache[0]: with the same Cache[0] entry
(a type-3 header and no type-4 body at all), adding an unrelated key 5
with a complete type-4 run flips `is_complete(0, cache)` from false to
true, because `if transport_id:` is false for 0 and the check falls into
the global scan over all keys. -/
theorem isComplete_zero_scans_other_entries :
    isComplete 0 (⟨[(0, [⟨0, 3, 0, true, [1]⟩]), (5, [⟨5, 4, 0, true, [65]⟩])], none⟩ : Cache)
        = true ∧
    isComplete 0 (⟨[(0, [⟨0, 3, 0, true, [1]⟩])], none⟩ : Cache) = false ∧
    cacheGet ⟨[(0, [⟨0, 3, 0, true, [1]⟩]), (5, [⟨5, 4, 0, true, [65]⟩])], none⟩ 0 =
      cacheGet ⟨[(0, [⟨0, 3, 0, true, [1]⟩])], none⟩ 0 ∧
    (cacheGet ⟨[(0, [⟨0, 3, 0, true, [1]⟩]), (5, [⟨5, 4, 0, true, [65]⟩])], none⟩ 0).filter
      (fun x => x.type = 4) = [] := by decide
